import Mathlib

/-!
Verification of the training/evaluation pipeline of the Thesis repository
(`scripts/train_test.py`, `scripts/utils.py`, `scripts/wav2vec_models.py`).

Each Python function relevant to the claims is shallowly embedded as a Lean
definition; machine integers are modelled by `Nat`/`Int`, Python `float`
arithmetic on the small rationals occurring here by `ℚ`, and Python
exceptions by `Except`/`Option`.
-/

set_option maxRecDepth 4096

namespace ThesisRepo

/- ----------------------------------------------------------------
   Split engine: `split_dataset` (scripts/utils.py, lines 42-51) and
   `_get_dataset_split` (scripts/train_test.py, lines 224-230).
   Both call `torch.utils.data.random_split` with
   `lengths = [round(len(dataset) * split_size), len(dataset) - round(len(dataset) * split_size)]`.
   ---------------------------------------------------------------- -/

/-- Python's builtin `round` on a rational value: nearest integer with
ties going to the even integer (banker's rounding). -/
def pyRound (q : ℚ) : ℤ :=
  if q - (⌊q⌋ : ℚ) < 1/2 then ⌊q⌋
  else if 1/2 < q - (⌊q⌋ : ℚ) then ⌊q⌋ + 1
  else if ⌊q⌋ % 2 = 0 then ⌊q⌋ else ⌊q⌋ + 1

/-- Size behaviour of `torch.utils.data.random_split` (external collaborator,
modelled by its documented contract): given requested subset lengths that sum
to the dataset length and are non-negative, it returns subsets of exactly the
requested lengths; otherwise the call is not well defined (`none`). -/
def random_split_sizes (n : ℕ) (l1 l2 : ℤ) : Option (ℤ × ℤ) :=
  if l1 + l2 = (n : ℤ) ∧ 0 ≤ l1 ∧ 0 ≤ l2 then some (l1, l2) else none

/-- Subset sizes produced by `split_dataset` / `_get_dataset_split` on a
dataset of `n` items with fraction `f`:
`lengths = [round(n * f), n - round(n * f)]`. -/
def split_dataset_sizes (n : ℕ) (f : ℚ) : Option (ℤ × ℤ) :=
  random_split_sizes n (pyRound ((n : ℚ) * f)) ((n : ℤ) - pyRound ((n : ℚ) * f))

lemma pyRound_cases (q : ℚ) : pyRound q = ⌊q⌋ ∨ pyRound q = ⌊q⌋ + 1 := by
  unfold pyRound
  split_ifs <;> simp

lemma pyRound_nonneg {q : ℚ} (h : 0 ≤ q) : 0 ≤ pyRound q := by
  have hf : (0 : ℤ) ≤ ⌊q⌋ := Int.floor_nonneg.mpr h
  rcases pyRound_cases q with h1 | h1 <;> omega

lemma pyRound_le_of_le {q : ℚ} {m : ℤ} (h : q ≤ (m : ℚ)) : pyRound q ≤ m := by
  have hf : ⌊q⌋ ≤ m := by
    have := Int.floor_le_floor h
    simpa using this
  rcases eq_or_lt_of_le hf with heq | hlt
  · have hr : q - (⌊q⌋ : ℚ) < 1/2 := by
      rw [heq]
      have : q - (m : ℚ) ≤ 0 := by linarith
      linarith
    unfold pyRound
    rw [if_pos hr]
    exact hf
  · rcases pyRound_cases q with h1 | h1 <;> omega

/- ----------------------------------------------------------------
   Best-checkpoint selection (scripts/train_test.py, lines 122-123):

     if best_model is None or val_loss < best_model["Loss"]:
         best_model = {"State_Dict": ..., "Epoch": epoch, "Loss": val_loss.item(), ...}
   ---------------------------------------------------------------- -/

/-- One `Save` decision of the training loop: keep the old best checkpoint
unless there is none yet or this epoch's validation loss is strictly lower. -/
def updateBest (best : Option (ℕ × ℚ)) (e : ℕ) (l : ℚ) : Option (ℕ × ℚ) :=
  match best with
  | none => some (e, l)
  | some (be, bl) => if l < bl then some (e, l) else some (be, bl)

/-- Folding the `Save` decision over the validation losses of the remaining
epochs, starting with epoch index `e0` and checkpoint state `best`. -/
def bestFrom (best : Option (ℕ × ℚ)) (e0 : ℕ) : List ℚ → Option (ℕ × ℚ)
  | [] => best
  | l :: ls => bestFrom (updateBest best e0 l) (e0 + 1) ls

/-- The best checkpoint retained after running all epochs with validation
losses `losses` (starting from `best_model = None`). -/
def bestAfter (losses : List ℚ) : Option (ℕ × ℚ) := bestFrom none 0 losses

lemma bestFrom_some (b : ℕ × ℚ) (e0 : ℕ) (ls : List ℚ) :
    ∃ c : ℕ × ℚ, bestFrom (some b) e0 ls = some c ∧ c.2 ≤ b.2 ∧ ∀ l ∈ ls, c.2 ≤ l := by
  induction ls generalizing b e0 with
  | nil => exact ⟨b, rfl, le_refl _, by simp⟩
  | cons l ls ih =>
    by_cases h : l < b.2
    · obtain ⟨c, hc, hcb, hcl⟩ := ih (e0, l) (e0 + 1)
      refine ⟨c, ?_, ?_, ?_⟩
      · simpa [bestFrom, updateBest, h] using hc
      · exact le_trans hcb (le_of_lt h)
      · intro x hx
        rcases List.mem_cons.mp hx with hx | hx
        · exact hx ▸ hcb
        · exact hcl x hx
    · obtain ⟨c, hc, hcb, hcl⟩ := ih b (e0 + 1)
      refine ⟨c, ?_, hcb, ?_⟩
      · have : updateBest (some b) e0 l = some b := by
          simp [updateBest, h]
        simpa [bestFrom, this] using hc
      · intro x hx
        rcases List.mem_cons.mp hx with hx | hx
        · subst hx
          exact le_trans hcb (not_lt.mp h)
        · exact hcl x hx

/- ----------------------------------------------------------------
   Training-checkpoint aliasing (scripts/train_test.py, lines 74-130).

   The `Save` step stores `model.state_dict()` in `best_model["State_Dict"]`.
   PyTorch's `state_dict()` returns the parameter tensors themselves (shared
   storage with the live model), and `optimizer.step()` mutates parameters in
   place, so the stored checkpoint denotes whatever the live parameters hold
   at the moment it is serialized by `torch.save` at `Finalize`.
   The model's parameter vector is abstracted to a single `Int` cell.
   ---------------------------------------------------------------- -/

/-- What `model.state_dict()` stores in the checkpoint dictionary: a view that
shares storage with the live parameters (no copy is taken). -/
inductive StateDictVal
  | aliasLive
  deriving DecidableEq

/-- The parameter value a stored state dict denotes when it is serialized
while the live parameter cell holds `p`. -/
def StateDictVal.valueAt (p : Int) : StateDictVal → Int
  | .aliasLive => p

/-- The in-memory best checkpoint: `{"State_Dict": ..., "Epoch": ..., "Loss": ...}`. -/
structure BestCk where
  sd : StateDictVal
  epoch : ℕ
  loss : ℚ
  deriving DecidableEq

/-- Training-loop state: the live parameter cell and the best checkpoint. -/
structure TrainSt where
  param : Int
  best : Option BestCk
  deriving DecidableEq

/-- The `Save` decision at the end of an epoch (lines 122-123): record a new
checkpoint holding `model.state_dict()` if none exists or the loss improved. -/
def saveDecision (st : TrainSt) (e : ℕ) (vloss : ℚ) : Option BestCk :=
  match st.best with
  | none => some ⟨.aliasLive, e, vloss⟩
  | some b => if vloss < b.loss then some ⟨.aliasLive, e, vloss⟩ else some b

/-- One epoch of `train`: the optimizer steps mutate the parameter cell in
place to `newParam`, then the `Save` decision runs on validation loss `vloss`. -/
def runEpoch (st : TrainSt) (e : ℕ) (newParam : Int) (vloss : ℚ) : TrainSt :=
  let st1 : TrainSt := { st with param := newParam }
  { st1 with best := saveDecision st1 e vloss }

/-- The whole epoch loop of `train`, from initial parameters `p0`, where
epoch `k` ends with parameter value `(epochs.get k).1` and validation loss
`(epochs.get k).2`. -/
def runEpochsFrom (st : TrainSt) (e0 : ℕ) : List (Int × ℚ) → TrainSt
  | [] => st
  | (p, l) :: rest => runEpochsFrom (runEpoch st e0 p l) (e0 + 1) rest

/-- Full training loop starting with `best_model = None`. -/
def runTrain (p0 : Int) (epochs : List (Int × ℚ)) : TrainSt :=
  runEpochsFrom ⟨p0, none⟩ 0 epochs

/-- Parameter value persisted at `Finalize` by
`torch.save(best_model["State_Dict"], f"{simulation_name}_best_model.pt")`
(line 129): the stored state dict is serialized against the final heap. -/
def savedBestParams (p0 : Int) (epochs : List (Int × ℚ)) : Option Int :=
  let st := runTrain p0 epochs
  st.best.map (fun b => b.sd.valueAt st.param)

/-- The epoch index recorded in the retained best checkpoint. -/
def bestEpochIndex (p0 : Int) (epochs : List (Int × ℚ)) : Option ℕ :=
  (runTrain p0 epochs).best.map (·.epoch)

/-- Modelled from the spec: "record this epoch's parameters, epoch index,
loss, and accuracy as the new best checkpoint" — a checkpoint that copies the
parameter value at `Save` time instead of aliasing the live tensors. -/
structure SpecBestCk where
  paramCopy : Int
  epoch : ℕ
  loss : ℚ
  deriving DecidableEq

/-- Modelled from the spec: `Save` decision with a parameter copy. -/
def specSaveDecision (best : Option SpecBestCk) (p : Int) (e : ℕ) (vloss : ℚ) :
    Option SpecBestCk :=
  match best with
  | none => some ⟨p, e, vloss⟩
  | some b => if vloss < b.loss then some ⟨p, e, vloss⟩ else some b

/-- Modelled from the spec: the epoch loop with copying checkpoints. -/
def specRunFrom (best : Option SpecBestCk) (e0 : ℕ) : List (Int × ℚ) → Option SpecBestCk
  | [] => best
  | (p, l) :: rest => specRunFrom (specSaveDecision best p e0 l) (e0 + 1) rest

/-- Modelled from the spec: the parameter value the best-model file should
hold — the parameters the model had at the end of the best epoch. -/
def specSavedBestParams (epochs : List (Int × ℚ)) : Option Int :=
  (specRunFrom none 0 epochs).map (·.paramCopy)

/- ----------------------------------------------------------------
   Epoch loss accumulation (scripts/train_test.py, lines 83-102, 105-115,
   189-200).  A batch is modelled by the list of its per-sample
   cross-entropy losses; `torch.nn.CrossEntropyLoss()` with its default
   reduction gives the mean over the batch.  The loop accumulates
     train_loss += loss.item() / len(train_loader)
   (and `val_loss += criterion(outputs, labels) / len(val_loader)`,
   `loss += ... / len(test_loader)`), dividing every per-batch mean by the
   number of batches.
   ---------------------------------------------------------------- -/

/-- The loss `torch.nn.CrossEntropyLoss()` computes on one batch (default reduction): the mean
of the per-sample losses. -/
def batchMeanLoss (b : List ℚ) : ℚ := b.sum / (b.length : ℚ)

/-- The epoch loss reported by the loops of `train` and `test`:
each per-batch mean loss is accumulated divided by the batch count. -/
def epochLossCode (batches : List (List ℚ)) : ℚ :=
  batches.foldl (fun acc b => acc + batchMeanLoss b / (batches.length : ℚ)) 0

/-- Modelled from the spec: "length-weighted average of batch losses" — each
batch contributes proportionally to its number of samples, i.e. the total
per-sample loss divided by the total number of samples. -/
def lengthWeightedLoss (batches : List (List ℚ)) : ℚ :=
  (batches.map List.sum).sum / ((batches.map List.length).sum : ℚ)

lemma foldl_add_apply (L : List α) (f : α → ℚ) (c : ℚ) :
    L.foldl (fun a b => a + f b) c = c + (L.map f).sum := by
  induction L generalizing c with
  | nil => simp
  | cons x xs ih => simp [List.foldl_cons, ih, add_assoc]

lemma sum_map_div (L : List α) (f : α → ℚ) (d : ℚ) :
    (L.map (fun b => f b / d)).sum = (L.map f).sum / d := by
  induction L with
  | nil => simp
  | cons x xs ih => simp [ih, add_div]

lemma epochLossCode_eq_mean (batches : List (List ℚ)) :
    epochLossCode batches =
      (batches.map batchMeanLoss).sum / (batches.length : ℚ) := by
  unfold epochLossCode
  rw [foldl_add_apply batches (fun b => batchMeanLoss b / (batches.length : ℚ)) 0]
  rw [sum_map_div batches batchMeanLoss ((batches.length : ℚ))]
  ring

/- ----------------------------------------------------------------
   Training-batch loop and progress reporting (scripts/train_test.py,
   lines 79-102).  `train_loader` has `ceil(n / batch_size)` batches
   (`DataLoader` default `drop_last=False`); at every batch index `i` the
   loop evaluates `i % (len(train_loader) // 10)`, which raises
   `ZeroDivisionError` when `len(train_loader) // 10 == 0`.
   ---------------------------------------------------------------- -/

/-- Number of batches a `DataLoader` yields over `n` items with the given
batch size (default `drop_last=False`): the ceiling of `n / batchSize`. -/
def numBatches (n batchSize : ℕ) : ℕ := (n + batchSize - 1) / batchSize

/-- Python exceptions the training loop can raise. -/
inductive TrainErr
  | zeroDivisionError
  deriving DecidableEq

/-- The per-epoch training-batch loop: every batch runs the
forward/backward/optimizer step, then the progress check evaluates
`i % (len(train_loader) // 10)`; modulo by zero raises. Returns how many
batches completed. -/
def epochBatchLoop (nb : ℕ) : Except TrainErr ℕ :=
  (List.range nb).foldlM
    (fun done _ =>
      if nb / 10 = 0 then Except.error TrainErr.zeroDivisionError
      else Except.ok (done + 1)) 0

/-- Outcome of the 1-epoch scenario run: number of completed training
batches, number of best checkpoints recorded, and number of checkpoint
artifacts persisted at run end — or the exception that aborted the run.
The per-epoch split takes `round(n * 0.8)` training items. -/
def scenarioRun (datasetItems batchSize : ℕ) : Except TrainErr (ℕ × ℕ × ℕ) :=
  match epochBatchLoop
      (numBatches (pyRound ((datasetItems : ℚ) * (8/10))).toNat batchSize) with
  | Except.error e => Except.error e
  | Except.ok done => Except.ok (done, 1, 2)

/- ----------------------------------------------------------------
   Staged optimizer scheduler:
   `Wav2VecCLSPaperFinetuning.optimizer_step` (scripts/wav2vec_models.py,
   lines 93-125).  Guard (lines 107-108):

     if (0.3 >= epoch / self.num_epochs and optimizer_idx == 0) or
        (0.3 < epoch / self.num_epochs and optimizer_idx == 1):

   then lr assignment (lines 111-122) and `optimizer.step()` (line 125).
   `E` is `self.num_epochs`, `e` the absolute epoch index.
   ---------------------------------------------------------------- -/

/-- Whether optimizer group 0 (classification head only) passes the guard at
epoch `e`: `0.3 >= epoch / num_epochs`. -/
def g0Active (E e : ℕ) : Bool := decide (((e : ℚ) / (E : ℚ)) ≤ 3/10)

/-- Whether optimizer group 1 (head plus feature projection and encoder)
passes the guard at epoch `e`: `0.3 < epoch / num_epochs`. -/
def g1Active (E e : ℕ) : Bool := decide ((3/10 : ℚ) < ((e : ℚ) / (E : ℚ)))

/-- Warm-up scale (line 112): `min(1., (epoch + 1) / (num_epochs // 10))`. -/
def warmScale (E e : ℕ) : ℚ := min 1 (((e : ℚ) + 1) / ((E / 10 : ℕ) : ℚ))

/-- Decay scale (lines 118-120):
`min(1., 1 - (epoch - num_epochs // 2) / (num_epochs - num_epochs // 2))`. -/
def decayScale (E e : ℕ) : ℚ :=
  min 1 (1 - (((e : ℚ) - ((E / 2 : ℕ) : ℚ)) / ((E : ℚ) - ((E / 2 : ℕ) : ℚ))))

/-- The lr assignment performed inside the guard (lines 111-122):
warm-up branch for `epoch < num_epochs // 10`, decay branch for
`epoch >= num_epochs // 2`, otherwise the param group's lr is untouched.
`base` is `optimizer.defaults["lr"]` (the construction-time rate, which
assignments to `pg['lr']` never change); `cur` the group's current lr. -/
def lrAssign (E : ℕ) (base : ℚ) (e : ℕ) (cur : ℚ) : ℚ :=
  if e < E / 10 then warmScale E e * base
  else if E / 2 ≤ e then decayScale E e * base
  else cur

/-- Effect of one `optimizer_step` call on the group's lr: the assignment
runs only when the guard admits this optimizer at epoch `e`. -/
def lrStep (E : ℕ) (base : ℚ) (act : ℕ → Bool) (e : ℕ) (cur : ℚ) : ℚ :=
  if act e then lrAssign E base e cur else cur

/-- The group's lr after the assignment phase of epoch `e` (the rate used if
the group steps at `e`).  Both Adam optimizers are constructed with
`lr=self.lr`, so the initial rate is `base`. -/
def lrAt (E : ℕ) (base : ℚ) (act : ℕ → Bool) : ℕ → ℚ
  | 0 => lrStep E base act 0 base
  | e + 1 => lrStep E base act (e + 1) (lrAt E base act e)

/-- The lr used by whichever optimizer group the guard admits at epoch `e`. -/
def activeLR (E : ℕ) (base : ℚ) (e : ℕ) : ℚ :=
  if g0Active E e then lrAt E base (g0Active E) e else lrAt E base (g1Active E) e

/-- Parameters touched by the two Adam optimizers of `configure_optimizers`
(lines 81-91): group 0 holds the linear head only; group 1 holds the head
plus the feature projection and encoder (abstracted as `enc`). -/
structure PaperParams where
  head : Int
  enc : Int
  deriving DecidableEq

/-- Effect on the parameters of one `optimizer_step` call with the given
`optimizer_idx`: `optimizer.step()` runs only when the guard admits the
index; stepping optimizer 0 updates the head, stepping optimizer 1 updates
the head and the encoder portion. -/
def paramStep (E e idx : ℕ) (uh ue : Int → Int) (p : PaperParams) : PaperParams :=
  if (idx = 0 ∧ g0Active E e) ∨ (idx = 1 ∧ g1Active E e) then
    if idx = 0 then { p with head := uh p.head }
    else { head := uh p.head, enc := ue p.enc }
  else p

/-- One epoch of Lightning stepping: `optimizer_step` is invoked for
optimizer index 0 and then index 1. -/
def epochParamSteps (E e : ℕ) (uh ue : Int → Int) (p : PaperParams) : PaperParams :=
  paramStep E e 1 uh ue (paramStep E e 0 uh ue p)

/-- Parameters after epochs `0 .. k-1` of the staged run. -/
def runPaperEpochs (E : ℕ) (uh ue : Int → Int) (p : PaperParams) : ℕ → PaperParams
  | 0 => p
  | k + 1 => epochParamSteps E k uh ue (runPaperEpochs E uh ue p k)

lemma g1Active_eq_not_g0 (E e : ℕ) : g1Active E e = !g0Active E e := by
  by_cases h : ((e : ℚ) / (E : ℚ)) ≤ 3/10
  · simp [g0Active, g1Active, h, not_lt.mpr h]
  · simp [g0Active, g1Active, h, lt_of_not_ge h]

lemma g0Active_iff (E e : ℕ) (hE : 0 < E) :
    g0Active E e = true ↔ 10 * e ≤ 3 * E := by
  have hE' : (0 : ℚ) < (E : ℚ) := by exact_mod_cast hE
  unfold g0Active
  rw [decide_eq_true_iff]
  rw [div_le_div_iff₀ hE' (by norm_num : (0:ℚ) < 10)]
  constructor
  · intro h
    have : (10 * e : ℚ) ≤ (3 * E : ℚ) := by linarith
    exact_mod_cast this
  · intro h
    have : (10 * e : ℚ) ≤ (3 * E : ℚ) := by exact_mod_cast h
    push_cast at this ⊢
    linarith

lemma g0Active_of_warm (E e : ℕ) (h : e < E / 10) : g0Active E e = true := by
  have h10 : 10 * (E / 10) ≤ E := by omega
  have hE : 0 < E := by omega
  rw [g0Active_iff E e hE]
  omega

lemma g1Active_false_of_warm (E e : ℕ) (h : e < E / 10) : g1Active E e = false := by
  rw [g1Active_eq_not_g0, g0Active_of_warm E e h]
  rfl

lemma lrAt_unfold (E : ℕ) (base : ℚ) (act : ℕ → Bool) (e : ℕ) :
    lrAt E base act e =
      lrStep E base act e (match e with | 0 => base | k + 1 => lrAt E base act k) := by
  cases e <;> rfl

lemma lrAt_warm (E : ℕ) (base : ℚ) (act : ℕ → Bool) (e : ℕ)
    (hact : act e = true) (hw : e < E / 10) :
    lrAt E base act e = warmScale E e * base := by
  rw [lrAt_unfold]
  simp [lrStep, lrAssign, hact, hw]

lemma div10_le_div2 (E : ℕ) : E / 10 ≤ E / 2 := Nat.div_le_div_left (by norm_num) (by norm_num)

lemma lrAt_decay (E : ℕ) (base : ℚ) (act : ℕ → Bool) (e : ℕ)
    (hact : act e = true) (hd : E / 2 ≤ e) :
    lrAt E base act e = decayScale E e * base := by
  have hnw : ¬ e < E / 10 := by
    have := div10_le_div2 E
    omega
  rw [lrAt_unfold]
  simp [lrStep, lrAssign, hact, hnw, hd]

lemma warmScale_last (E : ℕ) (h : 0 < E / 10) : warmScale E (E / 10 - 1) = 1 := by
  unfold warmScale
  have h' : 1 ≤ E / 10 := h
  have h1 : ((E / 10 - 1 : ℕ) : ℚ) + 1 = ((E / 10 : ℕ) : ℚ) := by
    rw [Nat.cast_sub h']
    push_cast
    ring
  rw [h1]
  have hne : ((E / 10 : ℕ) : ℚ) ≠ 0 := by
    have hpos : (0 : ℚ) < ((E / 10 : ℕ) : ℚ) := by exact_mod_cast h
    linarith
  rw [div_self hne, min_self]

lemma lrAt_g0_mid (E : ℕ) (base : ℚ) :
    ∀ e, E / 10 ≤ e → e < E / 2 → lrAt E base (g0Active E) e = base := by
  intro e
  induction e with
  | zero =>
    intro _ h2
    rw [lrAt_unfold]
    have hnw : ¬ (0 : ℕ) < E / 10 := by omega
    have hnd : ¬ E / 2 ≤ 0 := by omega
    unfold lrStep lrAssign
    split <;> simp [hnw, hnd]
  | succ e ih =>
    intro h1 h2
    have hnw : ¬ e + 1 < E / 10 := by omega
    have hnd : ¬ E / 2 ≤ e + 1 := by omega
    have hstep : lrAt E base (g0Active E) (e + 1) = lrAt E base (g0Active E) e := by
      rw [lrAt_unfold]
      unfold lrStep lrAssign
      split <;> simp [hnw, hnd]
    rw [hstep]
    rcases Nat.lt_or_ge e (E / 10) with h | h
    · have hE10 : E / 10 = e + 1 := by omega
      have hlast : e = E / 10 - 1 := by omega
      rw [lrAt_warm E base (g0Active E) e (g0Active_of_warm E e h) h]
      rw [hlast, warmScale_last E (by omega), one_mul]
    · exact ih h (by omega)

lemma lrAt_g1_pre_decay (E : ℕ) (base : ℚ) :
    ∀ e, e < E / 2 → lrAt E base (g1Active E) e = base := by
  intro e
  induction e with
  | zero =>
    intro h2
    rw [lrAt_unfold]
    have h0 : g1Active E 0 = false := by
      unfold g1Active
      simp only [Nat.cast_zero, zero_div]
      norm_num
    simp [lrStep, h0]
  | succ e ih =>
    intro h2
    have hstep : lrAt E base (g1Active E) (e + 1) = lrAt E base (g1Active E) e := by
      rw [lrAt_unfold]
      unfold lrStep lrAssign
      by_cases hact : g1Active E (e + 1) = true
      · have hnw : ¬ e + 1 < E / 10 := by
          intro hw
          have hfalse := g1Active_false_of_warm E (e + 1) hw
          rw [hact] at hfalse
          exact Bool.noConfusion hfalse
        have hnd : ¬ E / 2 ≤ e + 1 := by omega
        simp [hact, hnw, hnd]
      · rw [if_neg hact]
    rw [hstep]
    exact ih (by omega)

/- ----------------------------------------------------------------
   Name dispatch and failure sequencing in `train`
   (scripts/train_test.py, lines 55-66 and 212-230).

   `_get_model` (212-216) and `_get_dataset` (218-222) are if/elif chains
   with no else branch: an unrecognized name makes them return `None`.
   `train` constructs the dataset (line 56) and splits it (line 58) before
   constructing the model (line 64) and calling `model.to(device)` (line 66).
   ---------------------------------------------------------------- -/

/-- Python exceptions arising in `train`'s setup phase, plus the
configuration error the spec postulates. -/
inductive SetupErr
  | typeErrorLenOfNone
  | attributeErrorNoneTo
  | configurationError
  deriving DecidableEq

/-- Observable resource-allocation events during `train`'s setup phase. -/
inductive SetupEvent
  | datasetConstructed
  deriving DecidableEq

/-- Lowercasing of one ASCII character, as Python's `str.lower()` does on
the ASCII names used here. -/
def asciiLower (c : Char) : Char :=
  if c.isUpper then Char.ofNat (c.toNat + 32) else c

/-- Python's `str.lower()` on the ASCII model/dataset names. -/
def pyLower (s : String) : String := String.mk (s.data.map asciiLower)

/-- Whether `_get_model` (lines 212-216) recognizes the name: it accepts `"cnn"` and `"effnet"` after
lowercasing; any other name falls through every branch and yields `None`. -/
def get_model_defined (model_name : String) : Bool :=
  pyLower model_name == "cnn" || pyLower model_name == "effnet"

/-- Whether `_get_dataset` (lines 218-222) recognizes the name: it accepts `"demos"` and
`"demos_short_test"` after lowercasing; any other name yields `None`. -/
def get_dataset_defined (dataset_name : String) : Bool :=
  pyLower dataset_name == "demos" || pyLower dataset_name == "demos_short_test"

/-- The setup phase of `train`, in source order: construct the dataset,
split it (`len(None)` raises `TypeError` when `_get_dataset` returned
`None`), construct the model, move it to the device (`None.to(device)`
raises `AttributeError` when `_get_model` returned `None`).  Returns the
resource-allocation events that happened and the exception, if any. -/
def trainSetup (model_name dataset_name : String) :
    List SetupEvent × Option SetupErr :=
  if get_dataset_defined dataset_name then
    if get_model_defined model_name then ([SetupEvent.datasetConstructed], none)
    else ([SetupEvent.datasetConstructed], some SetupErr.attributeErrorNoneTo)
  else ([], some SetupErr.typeErrorLenOfNone)

/- ----------------------------------------------------------------
   Training-mode handling of frozen sub-modules
   (scripts/wav2vec_models.py).

   `Wav2VecComplete.train` (lines 309-316) and
   `Wav2VecFeezingEncoderOnly.train` (lines 378-385) override `train()`;
   `Wav2VecCLSPaperFinetuning` freezes its feature extractor in `__init__`
   (lines 67-69) but defines no `train()` override, so the inherited
   `nn.Module.train()` recursively puts every sub-module in training mode.
   A sub-module's mode is its boolean `training` flag.
   ---------------------------------------------------------------- -/

/-- Training flags of `Wav2VecComplete`'s sub-modules. -/
structure CompleteModes where
  pretrained_model : Bool
  linear_layer : Bool
  deriving DecidableEq

/-- The override `Wav2VecComplete.train` (lines 309-316): the pretrained encoder is put
in training mode only when `finetune_pretrained`, otherwise forced to eval;
the head always trains. -/
def completeTrain (finetune_pretrained : Bool) (_m : CompleteModes) : CompleteModes :=
  { pretrained_model := finetune_pretrained, linear_layer := true }

/-- In `Wav2VecComplete.__init__` (lines 269-270) the pretrained sub-module is
frozen (all its parameters get `requires_grad = False`) exactly when
`finetune_pretrained` is false. -/
def completeFrozenPretrained (finetune_pretrained : Bool) : Bool := !finetune_pretrained

/-- Training flags of `Wav2VecFeezingEncoderOnly`'s sub-modules. -/
structure FeezingModes where
  encoder : Bool
  feature_extractor : Bool
  feature_projection : Bool
  linear_layer : Bool
  deriving DecidableEq

/-- The override `Wav2VecFeezingEncoderOnly.train` (lines 378-385): the (frozen) encoder
is forced to eval; the other sub-modules train. -/
def feezingTrain (_m : FeezingModes) : FeezingModes :=
  { encoder := false, feature_extractor := true, feature_projection := true,
    linear_layer := true }

/-- Training flags of `Wav2VecCLSPaperFinetuning`'s sub-modules. -/
structure PaperModes where
  feature_extractor : Bool
  feature_projection : Bool
  encoder : Bool
  linear_layer : Bool
  deriving DecidableEq

/-- The class `Wav2VecCLSPaperFinetuning` defines no `train()` override, so calling
`model.train()` runs the inherited `nn.Module.train(True)`, which sets the
training flag of every sub-module — including the frozen feature
extractor — to `True`. -/
def paperTrain (_m : PaperModes) : PaperModes :=
  { feature_extractor := true, feature_projection := true, encoder := true,
    linear_layer := true }

/-- The constructor `Wav2VecCLSPaperFinetuning.__init__` (lines 67-69) freezes the feature
extractor: every parameter of `pretrained_model.feature_extractor` gets
`requires_grad = False`. -/
def paperFeatureExtractorFrozen : Bool := true

/- ----------------------------------------------------------------
   `Wav2VecCLSTokenNotPretrained` (scripts/wav2vec_models.py, lines
   224-256).  Its `__init__` (226-250) assigns only `pretrained_model` and
   `linear_layer`; its `forward` (252-256) evaluates
   `self.softmax_activation(self.linear_layer(cls_token))`, and the lookup
   of the never-assigned `softmax_activation` raises `AttributeError`.
   ---------------------------------------------------------------- -/

/-- Instance attributes referenced by `Wav2VecCLSTokenNotPretrained`. -/
inductive NPAttr
  | pretrained_model
  | linear_layer
  | softmax_activation
  deriving DecidableEq

/-- The attributes `Wav2VecCLSTokenNotPretrained.__init__` assigns (lines
226-250); the base `Wav2VecBase.__init__` assigns none. -/
def clsTokenNotPretrainedAttrs : List NPAttr :=
  [NPAttr.pretrained_model, NPAttr.linear_layer]

/-- Python attribute lookup on the instance: missing attributes raise
`AttributeError` (modelled as the error case). -/
def getattrNP (a : NPAttr) : Except Unit NPAttr :=
  if a ∈ clsTokenNotPretrainedAttrs then Except.ok a else Except.error ()

/-- The method `Wav2VecCLSTokenNotPretrained.forward` (lines 252-256): look up and call
`self.pretrained_model`, then look up `self.softmax_activation` (the callee
is evaluated before its argument), then `self.linear_layer`.  The numeric
content is irrelevant to the claim and is abstracted to the input value. -/
def clsTokenNotPretrainedForward (x : Int) : Except Unit Int := do
  let _ ← getattrNP NPAttr.pretrained_model
  let _ ← getattrNP NPAttr.softmax_activation
  let _ ← getattrNP NPAttr.linear_layer
  return x

/- ----------------------------------------------------------------
   Claim theorems
   ---------------------------------------------------------------- -/

/-- Claim C1 (code bug): the claim says the best checkpoint recorded at the
`Save` step keeps the parameter values of the best epoch unchanged by later
optimizer updates, so the persisted best-model file holds the best epoch's
parameters.  The code stores `model.state_dict()`, which aliases the live
parameter tensors, so the file persisted at `Finalize` holds the final
epoch's parameters instead: in a two-epoch run whose best epoch is epoch 0
(parameters 5, loss 1) followed by epoch 1 (parameters 7, loss 2), the
recorded best epoch is 0 but the persisted value is 7, while the
spec-modelled copying checkpoint persists 5. -/
theorem C1_best_checkpoint_aliasing_eval :
    savedBestParams 0 [(5, 1), (7, 2)] = some 7 ∧
    bestEpochIndex 0 [(5, 1), (7, 2)] = some 0 ∧
    specSavedBestParams [(5, 1), (7, 2)] = some 5 := by
  decide

/-- Claim C2 counterexample: the reported epoch loss is not the
length-weighted average of per-batch losses.  With a first batch of two
samples of loss 0 and a final batch of one sample of loss 3, the code
reports `(0 + 3) / 2 = 3/2`, while the length-weighted average is
`(0 + 0 + 3) / 3 = 1`. -/
theorem C2_counterexample :
    epochLossCode [[0, 0], [3]] = 3/2 ∧
    lengthWeightedLoss [[0, 0], [3]] = 1 ∧
    epochLossCode [[0, 0], [3]] ≠ lengthWeightedLoss [[0, 0], [3]] := by
  refine ⟨?_, ?_, ?_⟩ <;>
    norm_num [epochLossCode, lengthWeightedLoss, batchMeanLoss, List.foldl]

lemma sum_lengths_uniform (batches : List (List ℚ)) (k : ℕ)
    (hlen : ∀ b ∈ batches, b.length = k) :
    (batches.map List.length).sum = batches.length * k := by
  induction batches with
  | nil => simp
  | cons b bs ih =>
    have hb := hlen b (List.mem_cons_self b bs)
    have hrest : ∀ x ∈ bs, x.length = k := fun x hx => hlen x (List.mem_cons_of_mem _ hx)
    simp [hb, ih hrest, Nat.succ_mul, Nat.add_comm]

lemma sum_means_uniform (batches : List (List ℚ)) (k : ℕ)
    (hlen : ∀ b ∈ batches, b.length = k) :
    (batches.map batchMeanLoss).sum = (batches.map List.sum).sum / (k : ℚ) := by
  induction batches with
  | nil => simp
  | cons b bs ih =>
    have hb := hlen b (List.mem_cons_self b bs)
    have hrest : ∀ x ∈ bs, x.length = k := fun x hx => hlen x (List.mem_cons_of_mem _ hx)
    simp [batchMeanLoss, hb, ih hrest, add_div]

/-- Claim C2, amended: for every run, the reported epoch
train/validation/test loss is the unweighted arithmetic mean of the
per-batch mean cross-entropy losses — each batch contributes with weight
`1 / (number of batches)` regardless of its size — and in the special case
where every batch has the same size this unweighted mean coincides with the
length-weighted average. -/
theorem C2_unweighted_mean (batches : List (List ℚ)) :
    epochLossCode batches = (batches.map batchMeanLoss).sum / (batches.length : ℚ) ∧
    (∀ k : ℕ, (∀ b ∈ batches, b.length = k) →
      epochLossCode batches = lengthWeightedLoss batches) := by
  refine ⟨epochLossCode_eq_mean batches, ?_⟩
  intro k hlen
  rw [epochLossCode_eq_mean batches, sum_means_uniform batches k hlen]
  unfold lengthWeightedLoss
  rw [sum_lengths_uniform batches k hlen]
  push_cast
  rw [div_div, mul_comm]

/-- Witness for C2's amended statement on two batches of equal size 2. -/
theorem C2_witness :
    epochLossCode [[1, 2], [3, 4]] = lengthWeightedLoss [[1, 2], [3, 4]] :=
  (C2_unweighted_mean [[1, 2], [3, 4]]).2 2 (by decide)

/-- Claim C6: after any non-empty epoch sequence the retained best
checkpoint exists and its validation loss is `≤` every observed epoch
loss; the checkpoint is replaced only when an epoch's loss is strictly
lower than the recorded best; and the first epoch always records one. -/
theorem C6_best_checkpoint (losses : List ℚ) (hne : losses ≠ []) :
    (∃ c : ℕ × ℚ, bestAfter losses = some c ∧ ∀ l ∈ losses, c.2 ≤ l) ∧
    (∀ b : ℕ × ℚ, ∀ e : ℕ, ∀ l : ℚ, updateBest (some b) e l ≠ some b → l < b.2) ∧
    (∀ l : ℚ, updateBest none 0 l = some (0, l)) := by
  refine ⟨?_, ?_, fun l => rfl⟩
  · match losses, hne with
    | l :: ls, _ =>
      obtain ⟨c, hc, hcb, hcl⟩ := bestFrom_some (0, l) 1 ls
      refine ⟨c, ?_, ?_⟩
      · simpa [bestAfter, bestFrom, updateBest] using hc
      · intro x hx
        rcases List.mem_cons.mp hx with hx | hx
        · exact hx ▸ hcb
        · exact hcl x hx
  · intro b e l hne'
    by_cases h : l < b.2
    · exact h
    · exfalso
      apply hne'
      obtain ⟨be, bl⟩ := b
      simp only [updateBest]
      rw [if_neg h]

/-- Witness for C6 on the loss sequence `[2, 1, 3]`. -/
theorem C6_witness :
    ∃ c : ℕ × ℚ, bestAfter [2, 1, 3] = some c ∧ ∀ l ∈ ([2, 1, 3] : List ℚ), c.2 ≤ l :=
  (C6_best_checkpoint [2, 1, 3] (by decide)).1

/-- Claim C7: for every dataset length `n ≥ 1` and fraction `f ∈ [0, 1]`,
the split produces a first subset of size `round(n * f)` and a second of
size `n - round(n * f)`, and the sizes sum exactly to `n`. -/
theorem C7_split_sizes (n : ℕ) (f : ℚ) (_hn : 1 ≤ n) (hf0 : 0 ≤ f) (hf1 : f ≤ 1) :
    ∃ a b : ℤ, split_dataset_sizes n f = some (a, b) ∧
      a = pyRound ((n : ℚ) * f) ∧ a + b = (n : ℤ) := by
  have hq0 : 0 ≤ (n : ℚ) * f := mul_nonneg (Nat.cast_nonneg n) hf0
  have hqn : (n : ℚ) * f ≤ (((n : ℤ) : ℚ)) := by
    push_cast
    nlinarith [show (0 : ℚ) ≤ (n : ℚ) from Nat.cast_nonneg n]
  have h1 : 0 ≤ pyRound ((n : ℚ) * f) := pyRound_nonneg hq0
  have h2 : pyRound ((n : ℚ) * f) ≤ (n : ℤ) := pyRound_le_of_le hqn
  refine ⟨pyRound ((n : ℚ) * f), (n : ℤ) - pyRound ((n : ℚ) * f), ?_, rfl, by ring⟩
  unfold split_dataset_sizes random_split_sizes
  rw [if_pos]
  exact ⟨by ring, h1, by omega⟩

/-- Witness for C7 with a 10-item dataset and fraction 4/5. -/
theorem C7_witness :
    ∃ a b : ℤ, split_dataset_sizes 10 (4/5) = some (a, b) ∧
      a = pyRound ((10 : ℚ) * (4/5)) ∧ a + b = (10 : ℤ) :=
  C7_split_sizes 10 (4/5) (by norm_num) (by norm_num) (by norm_num)

/-- Claim C3: for the active optimizer group of the staged scheduler, the
learning rate follows the warm-up line `base * (e + 1) / (E // 10)` during
the first tenth of the epochs, stays at the base rate between the 10% and
50% marks, and follows the linear decay line
`base * (1 - (e - E // 2) / (E - E // 2))` (from base rate towards 0) from
the 50% mark on; in particular with `total_epochs = 10` at epoch 0 the
active group-0 rate is `base * 1/1`. -/
theorem C3_staged_lr (E e : ℕ) (base : ℚ) (hE : 0 < E) (_he : e < E) :
    (e < E / 10 → activeLR E base e = (((e : ℚ) + 1) / ((E / 10 : ℕ) : ℚ)) * base) ∧
    (E / 10 ≤ e → e < E / 2 → activeLR E base e = base) ∧
    (E / 2 ≤ e →
      activeLR E base e =
        (1 - (((e : ℚ) - ((E / 2 : ℕ) : ℚ)) / ((E : ℚ) - ((E / 2 : ℕ) : ℚ)))) * base) ∧
    (E = 10 → e = 0 → activeLR E base e = base * (1 / 1)) := by
  have warm : e < E / 10 →
      activeLR E base e = (((e : ℚ) + 1) / ((E / 10 : ℕ) : ℚ)) * base := by
    intro hw
    have hact := g0Active_of_warm E e hw
    have hpos : (0 : ℚ) < ((E / 10 : ℕ) : ℚ) := by
      exact_mod_cast Nat.pos_of_ne_zero (by omega)
    have hle : ((e : ℚ) + 1) ≤ ((E / 10 : ℕ) : ℚ) := by
      have : (e + 1 : ℕ) ≤ E / 10 := hw
      exact_mod_cast this
    unfold activeLR
    rw [if_pos hact, lrAt_warm E base (g0Active E) e hact hw]
    unfold warmScale
    rw [min_eq_right ((div_le_one hpos).mpr hle)]
  refine ⟨warm, ?_, ?_, ?_⟩
  · intro h1 h2
    unfold activeLR
    by_cases hact : g0Active E e = true
    · rw [if_pos hact]
      exact lrAt_g0_mid E base e h1 h2
    · rw [if_neg hact]
      exact lrAt_g1_pre_decay E base e h2
  · intro hd
    have hnum : (0 : ℚ) ≤ (e : ℚ) - ((E / 2 : ℕ) : ℚ) := by
      have : ((E / 2 : ℕ) : ℚ) ≤ (e : ℚ) := by exact_mod_cast hd
      linarith
    have hden : (0 : ℚ) < (E : ℚ) - ((E / 2 : ℕ) : ℚ) := by
      have : E / 2 < E := Nat.div_lt_self hE (by norm_num)
      have hc : ((E / 2 : ℕ) : ℚ) < (E : ℚ) := by exact_mod_cast this
      linarith
    have hcollapse : decayScale E e =
        1 - (((e : ℚ) - ((E / 2 : ℕ) : ℚ)) / ((E : ℚ) - ((E / 2 : ℕ) : ℚ))) := by
      unfold decayScale
      rw [min_eq_right]
      have : (0 : ℚ) ≤ ((e : ℚ) - ((E / 2 : ℕ) : ℚ)) / ((E : ℚ) - ((E / 2 : ℕ) : ℚ)) :=
        div_nonneg hnum (le_of_lt hden)
      linarith
    unfold activeLR
    by_cases hact : g0Active E e = true
    · rw [if_pos hact, lrAt_decay E base (g0Active E) e hact hd, hcollapse]
    · have hg0 : g0Active E e = false := by
        cases hb : g0Active E e
        · rfl
        · exact absurd hb hact
      have hg1 : g1Active E e = true := by
        rw [g1Active_eq_not_g0, hg0]
        rfl
      rw [if_neg hact, lrAt_decay E base (g1Active E) e hg1 hd, hcollapse]
  · intro hE10 he0
    subst hE10
    subst he0
    have h := warm (by norm_num)
    rw [h]
    norm_num

/-- Witness for C3: the spec's scenario, `total_epochs = 10`, epoch 0,
base rate 5. -/
theorem C3_witness : activeLR 10 (5 : ℚ) 0 = 5 * (1 / 1) :=
  (C3_staged_lr 10 0 5 (by norm_num) (by norm_num)).2.2.2 rfl rfl

/-- Claim C4 counterexample: group 0 is already inactive at epochs 5 and 6
of a 10-epoch staged run, yet its parameters (the classification head) are
still updated at epoch 6 — stepping optimizer group 1 updates the head too,
because group 1's parameter list includes the head.  So "once a group
becomes inactive its parameters receive no further gradient updates" fails. -/
theorem C4_counterexample :
    g0Active 10 0 = true ∧ g0Active 10 4 = false ∧ g0Active 10 6 = false ∧
    (epochParamSteps 10 6 (fun x => x + 1) (fun x => x + 1) ⟨0, 0⟩).head = 1 ∧
    ((⟨0, 0⟩ : PaperParams)).head ≠ 1 := by
  have h0 : g0Active 10 0 = true := by norm_num [g0Active]
  have h4 : g0Active 10 4 = false := by norm_num [g0Active]
  have h6 : g0Active 10 6 = false := by norm_num [g0Active]
  have hg1 : g1Active 10 6 = true := by norm_num [g1Active]
  refine ⟨h0, h4, h6, ?_, by norm_num⟩
  unfold epochParamSteps paramStep
  simp [h6, hg1]

/-- Claim C4, amended: at every epoch exactly one group passes the step
guard — group 0 exactly while `e/E ≤ 3/10`, group 1 afterwards, and group
0's activity window is downward closed, so the switch happens once.  While
group 0 is active the encoder portion receives no updates, and once group 0
is inactive its own optimizer never steps again; however group 0's
parameters (the head) do continue to be updated, because group 1's
parameter set also contains the head.  At epoch 6 of 10 group 0 is
inactive, group 1 active, and the decay phase (`e ≥ E // 2`) holds. -/
theorem C4_staged_groups (E e e' : ℕ) (hE : 0 < E) (uh ue : Int → Int) (p : PaperParams) :
    (g1Active E e = !g0Active E e) ∧
    (g0Active E e = true ↔ 10 * e ≤ 3 * E) ∧
    (e ≤ e' → g0Active E e' = true → g0Active E e = true) ∧
    (g0Active E e = true →
      epochParamSteps E e uh ue p = { p with head := uh p.head }) ∧
    (g0Active E e = false →
      epochParamSteps E e uh ue p = { head := uh p.head, enc := ue p.enc }) ∧
    (g0Active E e = false → paramStep E e 0 uh ue p = p) ∧
    (g0Active 10 6 = false ∧ g1Active 10 6 = true ∧ 10 / 2 ≤ 6) := by
  refine ⟨g1Active_eq_not_g0 E e, g0Active_iff E e hE, ?_, ?_, ?_, ?_,
    by norm_num [g0Active], by norm_num [g1Active], by norm_num⟩
  · intro hle hact
    rw [g0Active_iff E e' hE] at hact
    rw [g0Active_iff E e hE]
    omega
  · intro hact
    have hg1 : g1Active E e = false := by rw [g1Active_eq_not_g0, hact]; rfl
    unfold epochParamSteps paramStep
    simp [hact, hg1]
  · intro hact
    have hg1 : g1Active E e = true := by rw [g1Active_eq_not_g0, hact]; rfl
    unfold epochParamSteps paramStep
    simp [hact, hg1]
  · intro hact
    unfold paramStep
    simp [hact]

/-- Witness for C4's amended statement: the epoch-6-of-10 scenario. -/
theorem C4_witness : g0Active 10 6 = false ∧ g1Active 10 6 = true ∧ 10 / 2 ≤ 6 :=
  (C4_staged_groups 10 6 6 (by norm_num) (fun x => x) (fun x => x) ⟨0, 0⟩).2.2.2.2.2.2

/-- Claim C5 (code bug): on the 1-epoch, 10-item, batch-size-5 scenario the
per-epoch split yields `round(10 * 0.8) = 8` training items, hence
2 training batches — but then the progress-reporting step computes
`i % (len(train_loader) // 10)` with `2 // 10 = 0`, so the very first batch
raises `ZeroDivisionError` and the run aborts with no checkpoint recorded
and no artifact persisted, instead of completing as the claim states. -/
theorem C5_scenario_eval :
    pyRound ((10 : ℚ) * (8/10)) = 8 ∧
    numBatches 8 5 = 2 ∧
    scenarioRun 10 5 = Except.error TrainErr.zeroDivisionError := by
  have hfl : ⌊(8 : ℚ)⌋ = 8 := by norm_num
  have hr : pyRound ((10 : ℚ) * (8/10)) = 8 := by
    rw [show (10 : ℚ) * (8/10) = 8 by norm_num]
    unfold pyRound
    rw [hfl, if_pos (by norm_num)]
  refine ⟨hr, by decide, ?_⟩
  unfold scenarioRun
  rw [show ((10 : ℕ) : ℚ) = (10 : ℚ) by norm_num, hr]
  rfl

/-- Claim C8 counterexample: with the unknown model name `"resnet"` and the
known dataset name `"demos"`, `train` constructs the dataset first and then
fails at `model.to(device)` with an `AttributeError` on `None` — the
failure is not a configuration error and is not surfaced before dataset
loading. -/
theorem C8_counterexample :
    trainSetup "resnet" "demos" =
      ([SetupEvent.datasetConstructed], some SetupErr.attributeErrorNoneTo) := by
  decide

/-- Claim C8, amended: `_get_model` and `_get_dataset` perform no name
validation — they return `None` for unrecognized names.  With an unknown
model name and a known dataset name, `train` loads the dataset and then
fails with `AttributeError` at `model.to(device)`; with an unknown dataset
name it fails with `TypeError` at `len(None)` in the split step; no path
raises a configuration error. -/
theorem C8_no_config_error (model_name dataset_name : String)
    (hm : get_model_defined model_name = false)
    (hd : get_dataset_defined dataset_name = true) :
    trainSetup model_name dataset_name =
      ([SetupEvent.datasetConstructed], some SetupErr.attributeErrorNoneTo) ∧
    (∀ m d : String, (trainSetup m d).2 ≠ some SetupErr.configurationError) := by
  constructor
  · unfold trainSetup
    rw [if_pos hd, if_neg]
    rw [hm]
    exact Bool.false_ne_true
  · intro m d
    unfold trainSetup
    by_cases h1 : get_dataset_defined d = true
    · by_cases h2 : get_model_defined m = true <;> simp [h1, h2]
    · simp [h1]

/-- Witness for C8's amended statement, at the unknown model name `"foo"`
and the known dataset name `"demos_short_test"`. -/
theorem C8_witness :
    trainSetup "foo" "demos_short_test" =
      ([SetupEvent.datasetConstructed], some SetupErr.attributeErrorNoneTo) :=
  (C8_no_config_error "foo" "demos_short_test" (by decide) (by decide)).1

/-- Claim C9 counterexample: `Wav2VecCLSPaperFinetuning` freezes its feature
extractor at construction but does not override `train()`, so putting the
model in training mode also puts the frozen feature extractor in training
mode (its normalization statistics are not protected). -/
theorem C9_counterexample :
    paperFeatureExtractorFrozen = true ∧
    (paperTrain ⟨false, false, false, false⟩).feature_extractor = true := by
  decide

/-- Claim C9, amended: only `Wav2VecComplete` and
`Wav2VecFeezingEncoderOnly` override `train()` to force their frozen
sub-module to evaluation mode; `Wav2VecCLSPaperFinetuning`, which also has
a frozen sub-module (its feature extractor), inherits the default `train()`
and so puts that frozen sub-module into training mode. -/
theorem C9_frozen_eval_modes (m : CompleteModes) (m' : FeezingModes) (m'' : PaperModes) :
    (completeFrozenPretrained false = true ∧
     (completeTrain false m).pretrained_model = false ∧
     (completeTrain false m).linear_layer = true) ∧
    ((feezingTrain m').encoder = false ∧ (feezingTrain m').feature_projection = true ∧
     (feezingTrain m').linear_layer = true) ∧
    (paperFeatureExtractorFrozen = true ∧ (paperTrain m'').feature_extractor = true) :=
  ⟨⟨rfl, rfl, rfl⟩, ⟨rfl, rfl, rfl⟩, ⟨rfl, rfl⟩⟩

/-- Claim C10: `Wav2VecCLSTokenNotPretrained.forward` always raises: it looks
up `self.softmax_activation`, which `__init__` never assigns, so every call
ends in `AttributeError` and this variant can never produce a prediction. -/
theorem C10_forward_always_fails (x : Int) :
    clsTokenNotPretrainedForward x = Except.error () := rfl

end ThesisRepo







